import Mathlib

/-!
Verification of the gene-resolution core of the `agentic_cxg_query` repository
(`src/gene_resolver.py`): the `GeneMatch` / `GeneDict` data model, the pure
resolution routine `resolve_genes`, the Ensembl-identifier pattern test, the
filter-expression builder `build_var_value_filter`, and the cache fall-through
behaviour of `_get_gene_dict`.

Python dictionaries are embedded as association lists with `List.lookup`
(`dict.get(k)` becomes `l.lookup k`, `dict.get(k, d)` becomes
`(l.lookup k).getD d`).  Python's `str.strip` and `str.upper` are embedded
as operations on the string's character list (`pyStrip`, `pyUpper`), and
`sorted(set(...))` as a duplicate-dropping insertion sort (`sortedUnique`),
so that every definition evaluates by kernel reduction.
-/

namespace GeneResolver

/-- Python `str.strip()`: drop whitespace characters from both ends. -/
def pyStrip (s : String) : String :=
  ⟨((s.data.dropWhile Char.isWhitespace).reverse.dropWhile
      Char.isWhitespace).reverse⟩

/-- Python `str.upper()`: uppercase every character. -/
def pyUpper (s : String) : String :=
  ⟨s.data.map Char.toUpper⟩

/-- Lexicographic comparison of character lists by code point (the order
Python uses to compare strings). -/
def charListLt : List Char → List Char → Bool
  | _, [] => false
  | [], _ :: _ => true
  | a :: as, b :: bs =>
      if a.toNat < b.toNat then true
      else if b.toNat < a.toNat then false
      else charListLt as bs

/-- Lexicographic order on strings by code point. -/
def strLt (a b : String) : Bool :=
  charListLt a.data b.data

/-- Insert a string into a strictly-sorted duplicate-free list, keeping it
strictly sorted and duplicate-free. -/
def sortedInsert (a : String) : List String → List String
  | [] => [a]
  | b :: bs =>
      if a = b then b :: bs
      else if strLt a b then a :: b :: bs
      else b :: sortedInsert a bs

/-- Python `sorted(set(l))`: the strictly-ascending enumeration of the
distinct elements of `l`. -/
def sortedUnique (l : List String) : List String :=
  l.foldr sortedInsert []

/-- Result of resolving a single gene query (name or Ensembl ID).
Mirrors the `GeneMatch` dataclass: `query`, `ensembl_ids` (default `[]`),
`canonical_name` (default `None`), `is_ambiguous` (default `False`),
`feature_types` (default `[]`). -/
structure GeneMatch where
  query : String
  ensembl_ids : List String := []
  canonical_name : Option String := none
  is_ambiguous : Bool := false
  feature_types : List String := []
  deriving Repr, DecidableEq

/-- Bidirectional gene mapping built from census var data.  Mirrors the
`GeneDict` dataclass; each Python `Dict` is an association list. -/
structure GeneDict where
  name_to_ids : List (String × List String) := []
  id_to_name : List (String × String) := []
  id_to_feature_type : List (String × String) := []
  deriving Repr, DecidableEq

/-- The regex `^ENS[A-Z]*G\d+$` with `re.IGNORECASE` (`_ENSEMBL_PATTERN`),
applied via `.match` to an already-trimmed token.  Case-insensitivity is
embedded by uppercasing every character first; the token must then read:
literal `ENS`, a (maximal) run of letters whose last letter is `G`
(regex backtracking makes `[A-Z]*G` equivalent to "letters ending in G"),
then one or more digits, then end of string. -/
def ensemblSuffixCheck (rest : List Char) : Bool :=
  let letters := rest.takeWhile Char.isUpper
  let tail := rest.dropWhile Char.isUpper
  !letters.isEmpty && letters.getLast? == some 'G'
    && !tail.isEmpty && tail.all Char.isDigit

/-- See the doc comment above `ensemblSuffixCheck`: the whole pattern requires
the three literal characters `ENS` followed by the letters-`G`-digits suffix. -/
def ensemblPatternMatch (s : String) : Bool :=
  match (pyUpper s).data with
  | c1 :: c2 :: c3 :: rest =>
      c1 == 'E' && c2 == 'N' && c3 == 'S' && ensemblSuffixCheck rest
  | _ => false

/-- The body of the `for raw in gene_names` loop of `resolve_genes`,
resolving one raw token against a gene dictionary.  Each branch mirrors the
Python source: Ensembl-ID passthrough, empty name lookup (`if not ids`),
single candidate, protein-coding disambiguation, still-ambiguous. -/
def resolveOne (gd : GeneDict) (prefer_protein_coding : Bool)
    (raw : String) : GeneMatch :=
  let query := pyStrip raw
  if ensemblPatternMatch query then
    -- Ensembl ID passthrough
    let ens_upper := pyUpper query
    match gd.id_to_name.lookup ens_upper with
    | some name =>
        let ftype := gd.id_to_feature_type.lookup ens_upper
        { query := query
          ensembl_ids := [ens_upper]
          canonical_name := some name
          is_ambiguous := false
          -- `[ftype] if ftype else []`: Python truthiness makes both
          -- `None` and the empty string collapse to `[]`
          feature_types :=
            match ftype with
            | some ft => if ft = "" then [] else [ft]
            | none => [] }
    | none =>
        -- Unknown Ensembl ID — still pass it through
        { query := query
          ensembl_ids := [ens_upper]
          canonical_name := none
          is_ambiguous := false
          feature_types := [] }
  else
    -- Name-based lookup
    let norm := pyUpper query
    match gd.name_to_ids.lookup norm with
    | none => { query := query }
    | some [] => { query := query }   -- `if not ids` also catches `[]`
    | some [i] =>
        { query := query
          ensembl_ids := [i]
          canonical_name := some ((gd.id_to_name.lookup i).getD query)
          is_ambiguous := false
          feature_types := [(gd.id_to_feature_type.lookup i).getD ""] }
    | some (i0 :: i1 :: irest) =>
        let ids := i0 :: i1 :: irest
        let ftypes := ids.map fun i => (gd.id_to_feature_type.lookup i).getD ""
        -- Ambiguous — try protein_coding disambiguation
        let pc_ids := ((ids.zip ftypes).filter
            fun p => p.2 = "protein_coding").map fun p => p.1
        if prefer_protein_coding ∧ pc_ids.length = 1 then
          { query := query
            ensembl_ids := pc_ids
            canonical_name :=
              some ((gd.id_to_name.lookup (pc_ids.headI)).getD query)
            is_ambiguous := false
            feature_types := ["protein_coding"] }
        else
          -- Still ambiguous
          { query := query
            ensembl_ids := ids
            canonical_name := some ((gd.id_to_name.lookup i0).getD query)
            is_ambiguous := true
            feature_types := ftypes }

/-- `resolve_genes`: resolve a list of gene names / Ensembl IDs, one
`GeneMatch` per input name, order preserved.  The gene dictionary (obtained
in Python from `_get_gene_dict(census_version, organism)`) is passed
explicitly. -/
def resolve_genes (gd : GeneDict) (prefer_protein_coding : Bool := true)
    (gene_names : List String) : List GeneMatch :=
  gene_names.map (resolveOne gd prefer_protein_coding)

/-- `build_var_value_filter`: `sorted(set(ensembl_ids))`, then an empty
string for an empty collection, else
`"feature_id in ['ID1', 'ID2', ...]"`. -/
def build_var_value_filter (ensembl_ids : List String) : String :=
  let unique := sortedUnique ensembl_ids
  if unique.isEmpty then ""
  else "feature_id in ["
    ++ String.intercalate ", " (unique.map fun eid => "'" ++ eid ++ "'")
    ++ "]"

/-- Failure modes of the `pickle.load` deserialization attempt.  Besides
`pickle.UnpicklingError` and `EOFError`, the `pickle` documentation notes
that unpickling corrupt data may also raise other exceptions
(`AttributeError`, `ImportError`, `IndexError`, ...); `otherException`
stands for any of those. -/
inductive PickleFailure
  | unpicklingError
  | eofError
  | otherException
  deriving Repr, DecidableEq

/-- State of the durable cache file for a (version, organism) key: absent,
present but failing to deserialize in a given way, or present and holding a
dictionary. -/
inductive CacheFile
  | missing
  | corrupt (f : PickleFailure)
  | valid (gd : GeneDict)
  deriving Repr, DecidableEq

/-- The durable-cache control flow of `_get_gene_dict`: if the cache file
exists, deserialize and return it; `except (pickle.UnpicklingError, EOFError)`
catches exactly those two failure kinds, logs, and falls through to the
census fetch; any other exception raised by the deserialization attempt
propagates to the caller (`.error`).  `fetched` abstracts the result of the
fetch-and-build block, which catches all of its own exceptions and returns
the dictionary built so far (empty on early failure). -/
def getGeneDictFromCache (cache : CacheFile) (fetched : GeneDict) :
    Except PickleFailure GeneDict :=
  match cache with
  | .valid gd => .ok gd
  | .missing => .ok fetched
  | .corrupt f =>
      match f with
      | .unpicklingError => .ok fetched
      | .eofError => .ok fetched
      | .otherException => .error f

/-- The identifier shape exactly as the spec words it (§4.2): over the
case-folded token, literal prefix "ENS", zero or more (uppercase) letters,
literal "G", one or more digits, end of string. -/
def stableIdShapeSpec (s : String) : Prop :=
  ∃ w d : List Char,
    (pyUpper s).data = 'E' :: 'N' :: 'S' :: (w ++ 'G' :: d)
      ∧ (∀ c ∈ w, c.isUpper = true) ∧ d ≠ [] ∧ (∀ c ∈ d, c.isDigit = true)

/-- The unit-test fixture dictionary (`sample_gene_dict` in
`tests/test_gene_resolver.py`), extended with an explicit empty-list entry. -/
def sampleGd : GeneDict :=
  { name_to_ids := [("TP53", ["ENSG00000141510"]),
                    ("AMBIG", ["ENSG00000000001", "ENSG00000000002"]),
                    ("DUALPC", ["ENSG00000000003", "ENSG00000000004"]),
                    ("EMPTYLIST", [])]
    id_to_name := [("ENSG00000141510", "TP53"),
                   ("ENSG00000000001", "AMBIG"), ("ENSG00000000002", "AMBIG"),
                   ("ENSG00000000003", "DUALPC"), ("ENSG00000000004", "DUALPC")]
    id_to_feature_type := [("ENSG00000141510", "protein_coding"),
                           ("ENSG00000000001", "protein_coding"),
                           ("ENSG00000000002", "lncRNA"),
                           ("ENSG00000000003", "protein_coding"),
                           ("ENSG00000000004", "protein_coding")] }

/-- A dictionary whose only identifier has the empty string as its feature
type, exercising Python's truthiness in `[ftype] if ftype else []`. -/
def gdEmptyFt : GeneDict :=
  { name_to_ids := []
    id_to_name := [("ENSG1", "G1")]
    id_to_feature_type := [("ENSG1", "")] }

/-! ### Character-class facts -/

lemma isDigit_not_isUpper {c : Char} (h : c.isDigit = true) :
    c.isUpper = false := by
  rw [Bool.eq_false_iff]
  intro hu
  simp only [Char.isDigit, Char.isUpper, Bool.and_eq_true, decide_eq_true_eq,
    ge_iff_le, UInt32.le_def, BitVec.le_def] at h hu
  have e1 : ((48 : UInt32)).toBitVec.toNat = 48 := by decide
  have e2 : ((57 : UInt32)).toBitVec.toNat = 57 := by decide
  have e3 : ((65 : UInt32)).toBitVec.toNat = 65 := by decide
  have e4 : ((90 : UInt32)).toBitVec.toNat = 90 := by decide
  omega

/-! ### The identifier pattern agrees with the spec's shape -/

lemma ensemblSuffixCheck_iff (rest : List Char) :
    ensemblSuffixCheck rest = true
      ↔ ∃ w d : List Char, rest = w ++ 'G' :: d ∧ (∀ c ∈ w, c.isUpper = true)
          ∧ d ≠ [] ∧ (∀ c ∈ d, c.isDigit = true) := by
  constructor
  · intro h
    unfold ensemblSuffixCheck at h
    simp only [Bool.and_eq_true, Bool.not_eq_true', beq_iff_eq,
      List.all_eq_true, List.isEmpty_eq_false] at h
    obtain ⟨⟨⟨h1, h2⟩, h3⟩, h4⟩ := h
    refine ⟨(rest.takeWhile Char.isUpper).dropLast,
      rest.dropWhile Char.isUpper, ?_, ?_, h3, h4⟩
    · have hlet : (rest.takeWhile Char.isUpper).dropLast ++ ['G'] =
          rest.takeWhile Char.isUpper :=
        List.dropLast_append_getLast? 'G' (by rw [h2]; rfl)
      calc rest = rest.takeWhile Char.isUpper ++ rest.dropWhile Char.isUpper :=
            (List.takeWhile_append_dropWhile Char.isUpper rest).symm
        _ = ((rest.takeWhile Char.isUpper).dropLast ++ ['G'])
              ++ rest.dropWhile Char.isUpper := by rw [hlet]
        _ = (rest.takeWhile Char.isUpper).dropLast
              ++ 'G' :: rest.dropWhile Char.isUpper := by
            rw [List.append_assoc]; rfl
    · intro c hc
      have hmem : c ∈ rest.takeWhile Char.isUpper := List.dropLast_subset _ hc
      exact List.all_eq_true.mp List.all_takeWhile c hmem
  · rintro ⟨w, d, rfl, hw, hd, hdig⟩
    have hG : Char.isUpper 'G' = true := by decide
    have hw' : ∀ c ∈ w ++ ['G'], Char.isUpper c = true := by
      intro c hc
      rcases List.mem_append.mp hc with hcw | hcg
      · exact hw c hcw
      · rw [List.mem_singleton.mp hcg]; exact hG
    obtain ⟨e, d', rfl⟩ : ∃ e d', d = e :: d' := by
      cases d with
      | nil => exact absurd rfl hd
      | cons e d' => exact ⟨e, d', rfl⟩
    have he : Char.isUpper e = false :=
      isDigit_not_isUpper (hdig e (List.mem_cons_self e d'))
    have hassoc : w ++ 'G' :: e :: d' = (w ++ ['G']) ++ e :: d' := by simp
    have htake : (w ++ 'G' :: e :: d').takeWhile Char.isUpper = w ++ ['G'] := by
      rw [hassoc, List.takeWhile_append_of_pos hw',
        List.takeWhile_cons_of_neg (by simp [he])]
      simp
    have hdrop : (w ++ 'G' :: e :: d').dropWhile Char.isUpper = e :: d' := by
      rw [hassoc, List.dropWhile_append_of_pos hw',
        List.dropWhile_cons_of_neg (by simp [he])]
    unfold ensemblSuffixCheck
    simp only [htake, hdrop, Bool.and_eq_true, Bool.not_eq_true', beq_iff_eq,
      List.all_eq_true, List.isEmpty_eq_false]
    refine ⟨⟨⟨by simp, List.getLast?_concat w⟩, by simp⟩, hdig⟩

/-! ### Order facts about `charListLt` / `strLt` -/

lemma char_eq_of_toNat_eq {a b : Char} (h : a.toNat = b.toNat) : a = b :=
  Char.ext (UInt32.toNat.inj h)

lemma charListLt_iff : ∀ l₁ l₂ : List Char,
    charListLt l₁ l₂ = true ↔ List.Lex (· < ·) l₁ l₂
  | [], [] => by
      simp only [charListLt, Bool.false_eq_true, false_iff]
      exact List.Lex.not_nil_right _ _
  | [], _ :: _ => by
      simp only [charListLt, true_iff]
      exact List.Lex.nil
  | _ :: _, [] => by
      simp only [charListLt, Bool.false_eq_true, false_iff]
      exact List.Lex.not_nil_right _ _
  | a :: as, b :: bs => by
      have hlt : ∀ x y : Char, x < y ↔ x.toNat < y.toNat := fun x y => Iff.rfl
      simp only [charListLt]
      split
      · next h =>
          simp only [true_iff]
          exact List.Lex.rel ((hlt a b).mpr h)
      · next h =>
          split
          · next h2 =>
              simp only [Bool.false_eq_true, false_iff]
              intro hlex
              cases hlex with
              | cons _ => exact absurd h2 (Nat.lt_irrefl _)
              | rel hr => exact h ((hlt a b).mp hr)
          · next h2 =>
              have hab : a = b :=
                char_eq_of_toNat_eq
                  (Nat.le_antisymm (Nat.le_of_not_lt h2) (Nat.le_of_not_lt h))
              subst hab
              rw [List.Lex.cons_iff]
              exact charListLt_iff as bs

lemma strLt_iff (a b : String) : strLt a b = true ↔ a < b := by
  rw [String.lt_iff_toList_lt]
  exact charListLt_iff a.data b.data

/-! ### `sortedInsert` / `sortedUnique` -/

lemma mem_sortedInsert (a x : String) :
    ∀ l : List String, x ∈ sortedInsert a l ↔ x = a ∨ x ∈ l
  | [] => by simp [sortedInsert]
  | b :: bs => by
      simp only [sortedInsert]
      split
      · next h =>
          subst h
          simp only [List.mem_cons]
          tauto
      · next h =>
          split
          · next h2 => simp [List.mem_cons]
          · next h2 =>
              simp only [List.mem_cons, mem_sortedInsert a x bs]
              tauto

lemma sorted_sortedInsert (a : String) :
    ∀ l : List String, l.Sorted (· < ·) → (sortedInsert a l).Sorted (· < ·)
  | [] => fun _ => by simp [sortedInsert]
  | b :: bs => fun h => by
      rw [List.sorted_cons] at h
      simp only [sortedInsert]
      split
      · next hab =>
          subst hab
          rw [List.sorted_cons]
          exact h
      · next hab =>
          split
          · next h2 =>
              have hab' : a < b := (strLt_iff a b).mp h2
              rw [List.sorted_cons]
              refine ⟨?_, List.sorted_cons.mpr h⟩
              intro x hx
              rcases List.mem_cons.mp hx with rfl | hxbs
              · exact hab'
              · exact lt_trans hab' (h.1 x hxbs)
          · next h2 =>
              have hba : b < a := by
                have hnlt : ¬ a < b := fun hc =>
                  h2 ((strLt_iff a b).mpr hc)
                exact lt_of_le_of_ne (le_of_not_lt hnlt)
                  (fun hba => hab hba.symm)
              rw [List.sorted_cons]
              refine ⟨?_, sorted_sortedInsert a bs h.2⟩
              intro x hx
              rcases (mem_sortedInsert a x bs).mp hx with rfl | hxbs
              · exact hba
              · exact h.1 x hxbs

lemma sorted_sortedUnique : ∀ l : List String, (sortedUnique l).Sorted (· < ·)
  | [] => by simp [sortedUnique]
  | a :: l => sorted_sortedInsert a _ (sorted_sortedUnique l)

lemma mem_sortedUnique (x : String) :
    ∀ l : List String, x ∈ sortedUnique l ↔ x ∈ l
  | [] => by simp [sortedUnique]
  | a :: l => by
      show x ∈ sortedInsert a (sortedUnique l) ↔ _
      rw [mem_sortedInsert]
      simp [mem_sortedUnique x l]

lemma sortedUnique_eq_of_mem_iff {S T : List String}
    (h : ∀ x, x ∈ S ↔ x ∈ T) : sortedUnique S = sortedUnique T := by
  refine List.eq_of_perm_of_sorted ?_ (sorted_sortedUnique S) (sorted_sortedUnique T)
  rw [List.perm_ext_iff_of_nodup
    (sorted_sortedUnique S).nodup (sorted_sortedUnique T).nodup]
  intro x
  rw [mem_sortedUnique, mem_sortedUnique]
  exact h x

/-- The `pc_ids` list comprehension `[i for i, ft in zip(ids, ftypes) if
ft == "protein_coding"]` (with `ftypes` the pointwise feature-type lookup)
filters `ids` by each identifier's own feature type. -/
lemma pc_ids_eq (gd : GeneDict) (ids : List String) :
    ((ids.zip (ids.map fun i => (gd.id_to_feature_type.lookup i).getD "")).filter
        fun p => p.2 = "protein_coding").map (fun p => p.1)
      = ids.filter fun i =>
          (gd.id_to_feature_type.lookup i).getD "" = "protein_coding" := by
  induction ids with
  | nil => rfl
  | cons a l ih =>
      simp only [List.map_cons, List.zip_cons_cons, List.filter_cons]
      by_cases hpa : (gd.id_to_feature_type.lookup a).getD "" = "protein_coding" <;>
        simp [hpa, ih]

/-! ### Claim theorems -/

/-- C6: a trimmed query token is treated as a stable identifier iff it
matches, case-insensitively over the whole token, the shape: literal prefix
"ENS", zero or more letters, literal "G", one or more digits, end of string.
`ensemblPatternMatch` is exactly the condition guarding the passthrough
branch of `resolveOne`; `stableIdShapeSpec` is the spec's wording of the
shape. -/
theorem ensembl_pattern_iff_spec_shape (s : String) :
    ensemblPatternMatch s = true ↔ stableIdShapeSpec s := by
  unfold ensemblPatternMatch stableIdShapeSpec
  cases hcs : (pyUpper s).data with
  | nil => simp
  | cons c1 r1 =>
    cases r1 with
    | nil => simp
    | cons c2 r2 =>
      cases r2 with
      | nil => simp
      | cons c3 rest =>
        simp only [Bool.and_eq_true, beq_iff_eq, List.cons.injEq]
        rw [ensemblSuffixCheck_iff]
        constructor
        · rintro ⟨⟨⟨rfl, rfl⟩, rfl⟩, w, d, hrest, hw, hd, hdig⟩
          exact ⟨w, d, ⟨rfl, rfl, rfl, hrest⟩, hw, hd, hdig⟩
        · rintro ⟨w, d, ⟨rfl, rfl, rfl, hrest⟩, hw, hd, hdig⟩
          exact ⟨⟨⟨rfl, rfl⟩, rfl⟩, w, d, hrest, hw, hd, hdig⟩

/-- C2: `build_var_value_filter` returns the empty string exactly for an
empty input; on non-empty input it returns the exact string
`feature_id in ['ID1', 'ID2', ...]` over a strictly-ascending (hence
deduplicated) enumeration of exactly the input's identifiers, each single
quoted, joined by comma-space; including the spec's concrete example. -/
theorem build_var_value_filter_shape (l : List String) :
    (build_var_value_filter l = "" ↔ l = [])
    ∧ (sortedUnique l).Sorted (· < ·)
    ∧ (∀ x, x ∈ sortedUnique l ↔ x ∈ l)
    ∧ (l ≠ [] → build_var_value_filter l =
        "feature_id in [" ++ String.intercalate ", "
          ((sortedUnique l).map fun eid => "'" ++ eid ++ "'") ++ "]")
    ∧ build_var_value_filter ["ENSG00000012048", "ENSG00000141510"] =
        "feature_id in ['ENSG00000012048', 'ENSG00000141510']" := by
  have hsu : l ≠ [] → sortedUnique l ≠ [] := by
    intro hne hcon
    obtain ⟨a, ha⟩ := List.exists_mem_of_ne_nil l hne
    have hmem : a ∈ sortedUnique l := (mem_sortedUnique a l).mpr ha
    rw [hcon] at hmem
    exact absurd hmem (List.not_mem_nil a)
  refine ⟨⟨?_, ?_⟩, sorted_sortedUnique l, fun x => mem_sortedUnique x l,
    ?_, by decide⟩
  · intro h
    by_contra hne
    unfold build_var_value_filter at h
    rw [if_neg (by simp [hsu hne])] at h
    have hd := congrArg String.data h
    simp at hd
  · intro h
    subst h
    rfl
  · intro hne
    unfold build_var_value_filter
    rw [if_neg (by simp [hsu hne])]

/-- Witness for C2 at a concrete non-empty input. -/
theorem build_var_value_filter_shape_witness :
    build_var_value_filter ["ENSG00000141510"] =
      "feature_id in [" ++ String.intercalate ", "
        ((sortedUnique ["ENSG00000141510"]).map fun eid => "'" ++ eid ++ "'")
        ++ "]" :=
  (build_var_value_filter_shape ["ENSG00000141510"]).2.2.2.1 (by decide)

/-- C9: the output of `build_var_value_filter` depends only on the set of
distinct identifiers in its input. -/
theorem build_var_value_filter_set_invariant (S T : List String)
    (h : S.toFinset = T.toFinset) :
    build_var_value_filter S = build_var_value_filter T := by
  have hsu : sortedUnique S = sortedUnique T :=
    sortedUnique_eq_of_mem_iff fun x => by
      rw [← List.mem_toFinset, ← List.mem_toFinset (l := T), h]
  unfold build_var_value_filter
  rw [hsu]

/-- Witness for C9: a permutation with duplication yields the same filter. -/
theorem build_var_value_filter_set_invariant_witness :
    build_var_value_filter ["ENSG00000141510", "ENSG00000012048"] =
      build_var_value_filter
        ["ENSG00000012048", "ENSG00000141510", "ENSG00000012048"] :=
  build_var_value_filter_set_invariant _ _ (by decide)

/-- C4: every emitted `GeneMatch` satisfies the ambiguity invariant:
ambiguous implies more than one resolved identifier, non-ambiguous implies
at most one. -/
theorem resolve_genes_ambiguity_invariant (gd : GeneDict) (prefer : Bool)
    (names : List String) :
    ∀ m ∈ resolve_genes gd prefer names,
      (m.is_ambiguous = true → 1 < m.ensembl_ids.length)
      ∧ (m.is_ambiguous = false → m.ensembl_ids.length ≤ 1) := by
  intro m hm
  rw [resolve_genes, List.mem_map] at hm
  obtain ⟨raw, _hraw, rfl⟩ := hm
  simp only [resolveOne]
  split
  · split <;> simp
  · split
    · simp
    · simp
    · simp
    · split
      · next hc =>
          have h1 := hc.2
          rw [List.length_map] at h1
          refine ⟨fun hfalse => by simp at hfalse, fun _ => ?_⟩
          simp only [List.length_map]
          exact h1.le
      · simp

/-- Witness for C4 on a concrete ambiguous resolution. -/
theorem resolve_genes_ambiguity_invariant_witness :
    ((resolveOne sampleGd false "AMBIG").is_ambiguous = true →
      1 < (resolveOne sampleGd false "AMBIG").ensembl_ids.length)
    ∧ ((resolveOne sampleGd false "AMBIG").is_ambiguous = false →
      (resolveOne sampleGd false "AMBIG").ensembl_ids.length ≤ 1) :=
  resolve_genes_ambiguity_invariant sampleGd false ["AMBIG"]
    (resolveOne sampleGd false "AMBIG") (by decide)

/-- C5: `resolve_genes` preserves length and order (the i-th result resolves
the i-th token), and every result's `query` field is the input token with
surrounding whitespace stripped — `resolveOne` strips before any matching. -/
theorem resolve_genes_order_and_trim (gd : GeneDict) (prefer : Bool)
    (names : List String) :
    (resolve_genes gd prefer names).length = names.length
    ∧ (∀ i : Nat, (resolve_genes gd prefer names)[i]? =
        (names[i]?).map (resolveOne gd prefer))
    ∧ (∀ raw : String, (resolveOne gd prefer raw).query = pyStrip raw) := by
  refine ⟨by simp [resolve_genes], fun i => by simp [resolve_genes], fun raw => ?_⟩
  simp only [resolveOne]
  split
  · split <;> rfl
  · split
    · rfl
    · rfl
    · rfl
    · split <;> rfl

/-- C3: a token whose trimmed form matches the identifier pattern is passed
through: the single uppercased identifier is always emitted, non-ambiguous;
with the dictionary display name when present in `id_to_name`, and with no
canonical name and no feature types when absent.  (`resolveOne` is a total
function: unknown identifiers are data, not errors.) -/
theorem stable_id_passthrough (gd : GeneDict) (prefer : Bool) (raw : String)
    (h : ensemblPatternMatch (pyStrip raw) = true) :
    (resolveOne gd prefer raw).ensembl_ids = [pyUpper (pyStrip raw)]
    ∧ (resolveOne gd prefer raw).is_ambiguous = false
    ∧ (∀ nm, gd.id_to_name.lookup (pyUpper (pyStrip raw)) = some nm →
        (resolveOne gd prefer raw).canonical_name = some nm)
    ∧ (gd.id_to_name.lookup (pyUpper (pyStrip raw)) = none →
        (resolveOne gd prefer raw).canonical_name = none
        ∧ (resolveOne gd prefer raw).feature_types = []) := by
  simp only [resolveOne]
  simp only [h, eq_self_iff_true, if_true]
  cases hn : gd.id_to_name.lookup (pyUpper (pyStrip raw)) with
  | none => simp
  | some nm => simp

/-- Witness for C3: a known and correctly resolved stable identifier. -/
theorem stable_id_passthrough_witness :
    (resolveOne sampleGd true "ENSG00000141510").ensembl_ids
        = [pyUpper (pyStrip "ENSG00000141510")]
    ∧ (resolveOne sampleGd true "ENSG00000141510").canonical_name
        = some "TP53" := by
  have h := stable_id_passthrough sampleGd true "ENSG00000141510" (by decide)
  exact ⟨h.1, h.2.2.1 "TP53" (by decide)⟩

/-- C10: for a non-identifier token, a `name_to_ids` entry mapping to the
empty list is indistinguishable from an absent entry: both produce the
all-defaults `GeneMatch`. -/
theorem unknown_symbol_empty_result (gd : GeneDict) (prefer : Bool)
    (raw : String)
    (h : ensemblPatternMatch (pyStrip raw) = false)
    (h2 : gd.name_to_ids.lookup (pyUpper (pyStrip raw)) = none
        ∨ gd.name_to_ids.lookup (pyUpper (pyStrip raw)) = some []) :
    resolveOne gd prefer raw =
      { query := pyStrip raw, ensembl_ids := [], canonical_name := none,
        is_ambiguous := false, feature_types := [] } := by
  simp only [resolveOne]
  simp only [h, Bool.false_eq_true, if_false]
  rcases h2 with h2 | h2 <;> rw [h2]

/-- Witness for C10 on an explicit empty-list dictionary entry. -/
theorem unknown_symbol_empty_result_witness :
    resolveOne sampleGd true "EMPTYLIST" =
      { query := pyStrip "EMPTYLIST", ensembl_ids := [],
        canonical_name := none, is_ambiguous := false, feature_types := [] } :=
  unknown_symbol_empty_result sampleGd true "EMPTYLIST" (by decide)
    (.inr (by decide))

/-- C7 counterexample: the identifier is a dictionary key with feature type
`""`, yet the emitted feature-type list is `[]`, not `[""]` — Python's
`[ftype] if ftype else []` treats the empty string as falsy. -/
theorem passthrough_feature_type_counterexample :
    gdEmptyFt.id_to_name.lookup "ENSG1" = some "G1"
    ∧ gdEmptyFt.id_to_feature_type.lookup "ENSG1" = some ""
    ∧ (resolveOne gdEmptyFt true "ENSG1").feature_types = []
    ∧ (resolveOne gdEmptyFt true "ENSG1").feature_types ≠ [""] := by decide

/-- C7 amended: for a stable-identifier token found in the dictionary with
feature type `t`, the emitted list is `[t]` when `t` is non-empty, and `[]`
when `t` is the empty string. -/
theorem passthrough_feature_type (gd : GeneDict) (prefer : Bool) (raw : String)
    (hpat : ensemblPatternMatch (pyStrip raw) = true) (nm ft : String)
    (hnm : gd.id_to_name.lookup (pyUpper (pyStrip raw)) = some nm)
    (hft : gd.id_to_feature_type.lookup (pyUpper (pyStrip raw)) = some ft) :
    (resolveOne gd prefer raw).feature_types =
      if ft = "" then [] else [ft] := by
  simp only [resolveOne]
  simp only [hpat, eq_self_iff_true, if_true, hnm, hft]

/-- Witness for the amended C7 at a non-empty feature type. -/
theorem passthrough_feature_type_witness :
    (resolveOne sampleGd true "ENSG00000141510").feature_types =
      if "protein_coding" = "" then [] else ["protein_coding"] :=
  passthrough_feature_type sampleGd true "ENSG00000141510" (by decide)
    "TP53" "protein_coding" (by decide) (by decide)

/-- C1: multi-candidate symbol resolution.  When disambiguation is on and
exactly one candidate is `protein_coding`, only that identifier is emitted,
with its canonical name, non-ambiguous, feature types collapsed to
`["protein_coding"]`.  In every other multi-candidate case all candidates
are emitted in order, with the first candidate's canonical name, ambiguous,
and all candidates' feature types in order.  The `hnm` hypothesis is the
spec's dictionary invariant (candidates appear in `id_to_name`). -/
theorem multi_candidate_resolution (gd : GeneDict) (prefer : Bool)
    (raw : String) (i0 i1 : String) (irest : List String)
    (hpat : ensemblPatternMatch (pyStrip raw) = false)
    (hids : gd.name_to_ids.lookup (pyUpper (pyStrip raw))
        = some (i0 :: i1 :: irest))
    (hnm : ∀ i ∈ i0 :: i1 :: irest, (gd.id_to_name.lookup i).isSome = true) :
    (∀ p, prefer = true →
        ((i0 :: i1 :: irest).filter fun i =>
            (gd.id_to_feature_type.lookup i).getD "" = "protein_coding") = [p] →
        resolveOne gd prefer raw =
          { query := pyStrip raw
            ensembl_ids := [p]
            canonical_name := gd.id_to_name.lookup p
            is_ambiguous := false
            feature_types := ["protein_coding"] })
    ∧ ((prefer = false ∨
          ((i0 :: i1 :: irest).filter fun i =>
              (gd.id_to_feature_type.lookup i).getD ""
                = "protein_coding").length ≠ 1) →
        resolveOne gd prefer raw =
          { query := pyStrip raw
            ensembl_ids := i0 :: i1 :: irest
            canonical_name := gd.id_to_name.lookup i0
            is_ambiguous := true
            feature_types := (i0 :: i1 :: irest).map fun i =>
              (gd.id_to_feature_type.lookup i).getD "" }) := by
  constructor
  · intro p hprefer hp
    have hpmem : p ∈ i0 :: i1 :: irest := by
      refine List.mem_of_mem_filter (p := fun i =>
        (gd.id_to_feature_type.lookup i).getD "" = "protein_coding") ?_
      rw [hp]
      exact List.mem_singleton_self p
    obtain ⟨nmp, hnmp⟩ := Option.isSome_iff_exists.mp (hnm p hpmem)
    simp only [resolveOne]
    simp only [hpat, Bool.false_eq_true, if_false, hids]
    rw [pc_ids_eq, hp]
    rw [if_pos ⟨hprefer, rfl⟩]
    simp [hnmp]
  · intro hB
    have hcond : ¬ (prefer = true ∧
        ((i0 :: i1 :: irest).filter fun i =>
            (gd.id_to_feature_type.lookup i).getD ""
              = "protein_coding").length = 1) := by
      rcases hB with hB | hB
      · rintro ⟨h1, _⟩
        rw [hB] at h1
        exact Bool.false_ne_true h1
      · rintro ⟨_, h2⟩
        exact hB h2
    obtain ⟨nm0, hnm0⟩ :=
      Option.isSome_iff_exists.mp (hnm i0 (List.mem_cons_self i0 _))
    simp only [resolveOne]
    simp only [hpat, Bool.false_eq_true, if_false, hids]
    rw [pc_ids_eq]
    rw [if_neg hcond]
    simp [hnm0]

/-- Witness for C1: `AMBIG` maps to a protein-coding and an lncRNA
candidate; disambiguation picks the protein-coding one. -/
theorem multi_candidate_resolution_witness :
    resolveOne sampleGd true "AMBIG" =
      { query := pyStrip "AMBIG"
        ensembl_ids := ["ENSG00000000001"]
        canonical_name := sampleGd.id_to_name.lookup "ENSG00000000001"
        is_ambiguous := false
        feature_types := ["protein_coding"] } :=
  (multi_candidate_resolution sampleGd true "AMBIG" "ENSG00000000001"
    "ENSG00000000002" [] (by decide) (by decide) (by decide)).1
    "ENSG00000000001" rfl (by decide)

/-- C8 counterexample: a cache file whose deserialization fails with an
exception outside the caught `(pickle.UnpicklingError, EOFError)` tuple
propagates the exception instead of falling through to the fetch. -/
theorem cache_corrupt_counterexample :
    getGeneDictFromCache (.corrupt .otherException) {} =
      .error .otherException := rfl

/-- C8 amended: a deserialization failure of one of the two caught kinds
(`pickle.UnpicklingError` — corruption — or `EOFError` — truncation) is
swallowed and the function falls through to the fetch exactly as if the
cache file were missing; no exception reaches the caller in these cases. -/
theorem cache_corrupt_fallthrough (f : PickleFailure) (fetched : GeneDict)
    (h : f = .unpicklingError ∨ f = .eofError) :
    getGeneDictFromCache (.corrupt f) fetched = .ok fetched
    ∧ getGeneDictFromCache (.corrupt f) fetched
        = getGeneDictFromCache .missing fetched := by
  rcases h with rfl | rfl <;> exact ⟨rfl, rfl⟩

/-- Witness for the amended C8 at a concrete corrupt-cache state. -/
theorem cache_corrupt_fallthrough_witness :
    getGeneDictFromCache (.corrupt .unpicklingError) {} = .ok {} :=
  (cache_corrupt_fallthrough .unpicklingError {} (.inl rfl)).1

/-!
### Cross-checks against `tests/test_gene_resolver.py`

Concrete evaluations replicating the repository's unit tests (and the
spec's §8 examples) on the embedded definitions.
-/

example : build_var_value_filter [] = "" := by decide
example : build_var_value_filter ["ENSG00000141510"] =
    "feature_id in ['ENSG00000141510']" := by decide
example : build_var_value_filter ["ENSG00000012048", "ENSG00000141510"] =
    "feature_id in ['ENSG00000012048', 'ENSG00000141510']" := by decide
example : build_var_value_filter ["ENSG00000141510", "ENSG00000141510"] =
    "feature_id in ['ENSG00000141510']" := by decide
example : ensemblPatternMatch "ENSG00000141510" = true := by decide
example : ensemblPatternMatch "ENSMUSG00000051951" = true := by decide
example : ensemblPatternMatch "ensg00000141510" = true := by decide
example : ensemblPatternMatch "TP53" = false := by decide
example : ensemblPatternMatch "ENSG" = false := by decide
example : ensemblPatternMatch "ENSG123X" = false := by decide

example : resolveOne sampleGd true "  tp53  " =
    { query := "tp53", ensembl_ids := ["ENSG00000141510"],
      canonical_name := some "TP53", is_ambiguous := false,
      feature_types := ["protein_coding"] } := by decide
example : resolveOne sampleGd true "AMBIG" =
    { query := "AMBIG", ensembl_ids := ["ENSG00000000001"],
      canonical_name := some "AMBIG", is_ambiguous := false,
      feature_types := ["protein_coding"] } := by decide
example : resolveOne sampleGd false "AMBIG" =
    { query := "AMBIG", ensembl_ids := ["ENSG00000000001", "ENSG00000000002"],
      canonical_name := some "AMBIG", is_ambiguous := true,
      feature_types := ["protein_coding", "lncRNA"] } := by decide
example : resolveOne sampleGd true "DUALPC" =
    { query := "DUALPC", ensembl_ids := ["ENSG00000000003", "ENSG00000000004"],
      canonical_name := some "DUALPC", is_ambiguous := true,
      feature_types := ["protein_coding", "protein_coding"] } := by decide
example : resolveOne sampleGd true "NOTREAL" = { query := "NOTREAL" } := by decide
example : resolveOne sampleGd true "ENSG99999999999" =
    { query := "ENSG99999999999", ensembl_ids := ["ENSG99999999999"],
      canonical_name := none, is_ambiguous := false,
      feature_types := [] } := by decide

end GeneResolver
